import Mathlib

/-!
Verification development for the classical-music catalog admin tool.

The definitions below are shallow embeddings of the repository's source:
the composer-slug derivation and the track/composer POST endpoints, the
server actions (album/artist/track/composer/work/movement upserts), and the
admin UI's movement-number inference over the in-memory track list.
JavaScript strings are modelled as `List Char` pipelines; JS `parseInt`,
`toLowerCase`, `trim`, regex replacement and regex search are modelled
explicitly.  The relational store is modelled as lists of rows with the
uniqueness constraints the spec describes.
-/

set_option maxHeartbeats 1000000

/-! ## JavaScript character and string primitives -/

/-- The character class matched by JavaScript's regex `\s` and removed by
`String.prototype.trim` (whitespace plus line terminators plus BOM). -/
def jsIsWhitespace (c : Char) : Bool :=
  c.toNat == 32 || c.toNat == 9 || c.toNat == 10 || c.toNat == 11 ||
  c.toNat == 12 || c.toNat == 13 || c.toNat == 160 || c.toNat == 5760 ||
  (8192 ≤ c.toNat && c.toNat ≤ 8202) || c.toNat == 8232 || c.toNat == 8233 ||
  c.toNat == 8239 || c.toNat == 8287 || c.toNat == 12288 || c.toNat == 65279

def isAsciiLowerAlpha (c : Char) : Bool := 97 ≤ c.toNat && c.toNat ≤ 122

def isAsciiUpperAlpha (c : Char) : Bool := 65 ≤ c.toNat && c.toNat ≤ 90

def isDigitChar (c : Char) : Bool := 48 ≤ c.toNat && c.toNat ≤ 57

/-- The regex character class `[a-zA-Z0-9]`. -/
def isAsciiAlnumChar (c : Char) : Bool :=
  isAsciiLowerAlpha c || isAsciiUpperAlpha c || isDigitChar c

def isHexDigitChar (c : Char) : Bool :=
  isDigitChar c || (97 ≤ c.toNat && c.toNat ≤ 102) || (65 ≤ c.toNat && c.toNat ≤ 70)

/-- `String.prototype.toLowerCase` on one character (Unicode Default Case
Conversion, which may produce several characters).  ASCII `A`-`Z` map to
`a`-`z`; U+212A KELVIN SIGN maps to `k` and U+0130 LATIN CAPITAL LETTER I
WITH DOT ABOVE maps to `i` followed by U+0307 COMBINING DOT ABOVE - these
two are the only Unicode lowercase mappings whose output contains an ASCII
character.  Every other character is kept unchanged: all remaining Unicode
lowercase mappings send non-ASCII characters to non-ASCII cased letters,
never to ASCII letters or digits, whitespace, or a hyphen, so the slug
filter below removes the image exactly when it removes the original. -/
def jsToLowerChars (c : Char) : List Char :=
  if isAsciiUpperAlpha c then [Char.ofNat (c.toNat + 32)]
  else if c.toNat = 8490 then ['k']
  else if c.toNat = 304 then ['i', Char.ofNat 775]
  else [c]

/-- `String.prototype.toLowerCase` over a character list. -/
def jsToLowerList : List Char → List Char
  | [] => []
  | c :: rest => jsToLowerChars c ++ jsToLowerList rest

def jsToLowerString (s : String) : String := ⟨jsToLowerList s.data⟩

/-! ## The composer slug derivation

Source (`addComposer` and the composer POST endpoint): lowercase the name,
delete every character outside `[a-z0-9\s-]`, replace each whitespace run
(regex `\s+`) with `-`, collapse each hyphen run (regex `-+`) to `-`, trim.
-/

/-- Characters kept by `.replace(/[^a-z0-9\s-]/g, "")`. -/
def slugKeepChar (c : Char) : Bool :=
  isAsciiLowerAlpha c || isDigitChar c || jsIsWhitespace c || c == '-'

/-- The whitespace-run replacement: each maximal whitespace run becomes one
hyphen.  The flag records whether the previous character was whitespace. -/
def collapseWsAux : Bool → List Char → List Char
  | _, [] => []
  | prevWs, c :: rest =>
    if jsIsWhitespace c then
      if prevWs then collapseWsAux true rest else '-' :: collapseWsAux true rest
    else c :: collapseWsAux false rest

/-- The hyphen-run collapse: each maximal hyphen run becomes one hyphen. -/
def collapseHyAux : Bool → List Char → List Char
  | _, [] => []
  | prevHy, c :: rest =>
    if c == '-' then
      if prevHy then collapseHyAux true rest else '-' :: collapseHyAux true rest
    else c :: collapseHyAux false rest

/-- `String.prototype.trim`. -/
def jsTrimList (l : List Char) : List Char :=
  ((l.dropWhile jsIsWhitespace).reverse.dropWhile jsIsWhitespace).reverse

/-- The slug derivation used for composer identifiers. -/
def slugify (s : String) : String :=
  ⟨jsTrimList (collapseHyAux false (collapseWsAux false
    ((jsToLowerList s.data).filter slugKeepChar)))⟩

/-! ## JavaScript `parseInt` and the album-year derivation -/

def decimalVal (l : List Char) : Nat :=
  l.foldl (fun acc c => acc * 10 + (c.toNat - 48)) 0

def hexDigitVal (c : Char) : Nat :=
  if isDigitChar c then c.toNat - 48
  else if 97 ≤ c.toNat then c.toNat - 87
  else c.toNat - 55

def hexVal (l : List Char) : Nat :=
  l.foldl (fun acc c => acc * 16 + hexDigitVal c) 0

/-- JavaScript `parseInt(s)` (radix unspecified): skip whitespace, optional
sign, an optional `0x`/`0X` hex prefix, then the maximal digit run; `none`
models `NaN`. -/
def parseIntL (l0 : List Char) : Option Int :=
  match l0.dropWhile jsIsWhitespace with
  | [] => none
  | c :: rest =>
    let neg : Bool := c == '-'
    let body : List Char := if c == '-' || c == '+' then rest else c :: rest
    let isHex : Bool :=
      match body with
      | c0 :: c1 :: _ => c0 == '0' && (c1 == 'x' || c1 == 'X')
      | _ => false
    if isHex then
      let ds := (body.drop 2).takeWhile isHexDigitChar
      if ds.isEmpty then none
      else if neg then some (-(hexVal ds : Int)) else some (hexVal ds)
    else
      let ds := body.takeWhile isDigitChar
      if ds.isEmpty then none
      else if neg then some (-(decimalVal ds : Int)) else some (decimalVal ds)

/-- The value stored in the album `year` column: a JS number, `NaN`, or `null`. -/
inductive JsYear where
  | null
  | nan
  | num (n : Int)
deriving DecidableEq

/-- `albumData.release_date ? parseInt(albumData.release_date.split("-")[0]) : null`. -/
def deriveYear (rd : String) : JsYear :=
  if rd = "" then .null
  else
    match parseIntL (rd.data.takeWhile (fun c => !(c == '-'))) with
    | none => .nan
    | some n => .num n

/-- `x || null` applied to a JS number field (`0` is falsy). -/
def jsOrNullInt (x : Option Int) : Option Int :=
  match x with
  | some v => if v == 0 then none else some v
  | none => none

/-! ## Sessions, errors, and the Catalog Store -/

structure Session where
  name : String
  userId : String
deriving DecidableEq

inductive ActionErr where
  | unauthorized
  | accessDenied
  | failed (msg : String)
deriving DecidableEq

inductive ActRes (α : Type) where
  | ok (val : α)
  | err (e : ActionErr)
deriving DecidableEq

structure AlbumRow where
  spotifyId : String
  title : String
  year : JsYear
  popularity : Option Int
deriving DecidableEq

structure ArtistRow where
  spotifyId : String
  name : String
  popularity : Option Int
deriving DecidableEq

structure TrackRow where
  spotifyId : String
  title : String
  trackNumber : Int
  durationMs : Int
  popularity : Option Int
  spotifyAlbumId : String
deriving DecidableEq

structure TrackArtistRow where
  spotifyTrackId : String
  spotifyArtistId : String
deriving DecidableEq

structure ComposerRow where
  id : String
  name : String
  spotifyArtistId : String
deriving DecidableEq

structure WorkRow where
  id : String
  composerId : String
  title : String
  nickname : Option String
  catalogSystem : String
  catalogNumber : String
  yearComposed : Option Int
  form : Option String
deriving DecidableEq

structure MovementRow where
  id : String
  workId : String
  number : Nat
  title : Option String
deriving DecidableEq

structure TrackMovementRow where
  spotifyTrackId : String
  movementId : String
  startMs : Option Int
  endMs : Option Int
deriving DecidableEq

/-- The relational Catalog Store, one list of rows per table. -/
structure Store where
  spotifyAlbums : List AlbumRow
  spotifyArtists : List ArtistRow
  spotifyTracks : List TrackRow
  trackArtists : List TrackArtistRow
  composers : List ComposerRow
  works : List WorkRow
  movements : List MovementRow
  trackMovements : List TrackMovementRow
deriving DecidableEq

def emptyStore : Store := ⟨[], [], [], [], [], [], [], []⟩

/-- `insert ... onConflictDoUpdate` keyed by a string column: replace the
conflicting row in place, otherwise append. -/
def upsertByKey {α : Type} (key : α → String) (r : α) (l : List α) : List α :=
  if l.any (fun a => key a == key r) then
    l.map (fun a => if key a == key r then r else a)
  else l ++ [r]

/-- `checkAuth` from the server actions: no session fails with `Unauthorized`;
a session whose user name is not the fixed operator fails with `Access denied`. -/
def checkAuth (session : Option Session) : ActRes Session :=
  match session with
  | none => .err .unauthorized
  | some s => if s.name = "benwaffle" then .ok s else .err .accessDenied

/-- Result of a server action: the thrown-or-returned value, the store after
the call, and whether the external Provider was contacted. -/
structure ActOut (α : Type) where
  result : ActRes α
  store : Store
  providerCalled : Bool
deriving DecidableEq

/-! ## Server actions (the Catalog Write Service) -/

structure AlbumInput where
  id : String
  name : String
  release_date : String
  popularity : Option Int
deriving DecidableEq

/-- `addAlbumToDatabase`: auth check, token fetch (a missing token throws
inside the `try`, surfacing as the generic failure), year derivation from the
release date, Provider fetch for the full album's popularity, then an upsert
keyed by the Spotify album id. -/
def addAlbumToDatabase (st : Store) (session : Option Session) (token : Option String)
    (providerAlbumPopularity : String → Option Int) (d : AlbumInput) : ActOut Unit :=
  match checkAuth session with
  | .err e => ⟨.err e, st, false⟩
  | .ok _ =>
    match token with
    | none => ⟨.err (.failed "Failed to add album to database"), st, false⟩
    | some _ =>
      let year := deriveYear d.release_date
      let row : AlbumRow := ⟨d.id, d.name, year, jsOrNullInt (providerAlbumPopularity d.id)⟩
      ⟨.ok (), { st with spotifyAlbums := upsertByKey AlbumRow.spotifyId row st.spotifyAlbums }, true⟩

structure ArtistInput where
  id : String
  name : String
deriving DecidableEq

/-- `addArtistsToDatabase`: auth check, then a sequential per-artist Provider
fetch and upsert keyed by the Spotify artist id. -/
def addArtistsToDatabase (st : Store) (session : Option Session) (token : Option String)
    (providerArtistPopularity : String → Option Int) (artists : List ArtistInput) : ActOut Unit :=
  match checkAuth session with
  | .err e => ⟨.err e, st, false⟩
  | .ok _ =>
    match token with
    | none => ⟨.err (.failed "Failed to add artists to database"), st, false⟩
    | some _ =>
      let st' := artists.foldl (fun acc a =>
        let row : ArtistRow := ⟨a.id, a.name, jsOrNullInt (providerArtistPopularity a.id)⟩
        { acc with spotifyArtists := upsertByKey ArtistRow.spotifyId row acc.spotifyArtists }) st
      ⟨.ok (), st', !artists.isEmpty⟩

structure TrackInput where
  id : String
  name : String
  uri : String
  duration_ms : Int
  track_number : Int
  popularity : Option Int
  albumId : String
  artists : List ArtistInput
deriving DecidableEq

/-- `insert ... onConflictDoNothing` on the track-artist association. -/
def insertTrackArtistIgnore (r : TrackArtistRow) (l : List TrackArtistRow) : List TrackArtistRow :=
  if l.any (fun a => a.spotifyTrackId == r.spotifyTrackId && a.spotifyArtistId == r.spotifyArtistId)
  then l else l ++ [r]

/-- `addTrackToDatabase`: auth check, track upsert, then per-artist
association inserts that ignore existing rows.  No Provider call. -/
def addTrackToDatabase (st : Store) (session : Option Session) (d : TrackInput) : ActOut Unit :=
  match checkAuth session with
  | .err e => ⟨.err e, st, false⟩
  | .ok _ =>
    let row : TrackRow := ⟨d.id, d.name, d.track_number, d.duration_ms, d.popularity, d.albumId⟩
    let st1 := { st with spotifyTracks := upsertByKey TrackRow.spotifyId row st.spotifyTracks }
    let st2 := d.artists.foldl (fun acc a =>
      { acc with trackArtists := insertTrackArtistIgnore ⟨d.id, a.id⟩ acc.trackArtists }) st1
    ⟨.ok (), st2, false⟩

/-- Modelled from the spec: the Composer table's schema is not under `src/`;
per §3 the slug `id` is the primary key and the `spotifyArtistId`
back-reference is enforced as unique, so a plain insert conflicts exactly when
either value is already present. -/
def composerInsertConflicts (st : Store) (row : ComposerRow) : Bool :=
  st.composers.any (fun c => c.id == row.id || c.spotifyArtistId == row.spotifyArtistId)

/-- `addComposer`: inline session checks identical to `checkAuth`, slug
derivation, then a plain insert with no conflict handling; any store failure
is caught and rethrown as the generic failure. -/
def addComposer (st : Store) (session : Option Session)
    (spotifyArtistId name : String) : ActOut ComposerRow :=
  match checkAuth session with
  | .err e => ⟨.err e, st, false⟩
  | .ok _ =>
    let row : ComposerRow := ⟨slugify name, name, spotifyArtistId⟩
    if composerInsertConflicts st row then
      ⟨.err (.failed "Failed to add composer"), st, false⟩
    else
      ⟨.ok row, { st with composers := st.composers ++ [row] }, false⟩

structure WorkMovementCheck where
  workExists : Bool
  movementExists : Bool
  work : Option WorkRow
  movement : Option MovementRow
deriving DecidableEq

/-- `checkWorkAndMovement`: auth check, then two reads. -/
def checkWorkAndMovement (st : Store) (session : Option Session)
    (composerId catalogSystem catalogNumber : String) (movementNumber : Nat) :
    ActOut WorkMovementCheck :=
  match checkAuth session with
  | .err e => ⟨.err e, st, false⟩
  | .ok _ =>
    let works := st.works.filter (fun w =>
      w.composerId == composerId && w.catalogSystem == catalogSystem &&
      w.catalogNumber == catalogNumber)
    match works.head? with
    | none => ⟨.ok ⟨false, false, none, none⟩, st, false⟩
    | some w =>
      let movements := st.movements.filter (fun m => m.workId == w.id && m.number == movementNumber)
      ⟨.ok ⟨true, movements.head?.isSome, some w, movements.head?⟩, st, false⟩

structure WorkMovementTrackInput where
  composerId : String
  formalName : String
  nickname : Option String
  catalogSystem : String
  catalogNumber : String
  key : Option String
  form : Option String
  movementNumber : Nat
  movementName : Option String
  yearComposed : Option Int
  spotifyTrackId : String
deriving DecidableEq

structure WorkMovementTrackOut where
  workId : String
  movementId : String
deriving DecidableEq

/-- `insert ... onConflictDoNothing` on the track-movement link. -/
def insertTrackMovementIgnore (r : TrackMovementRow) (l : List TrackMovementRow) :
    List TrackMovementRow :=
  if l.any (fun a => a.spotifyTrackId == r.spotifyTrackId && a.movementId == r.movementId)
  then l else l ++ [r]

/-- `addWorkMovementAndTrack`: auth check, work upsert under the derived work
id, movement upsert under the derived movement id, then a track-movement link
insert that ignores an existing link. -/
def addWorkMovementAndTrack (st : Store) (session : Option Session)
    (d : WorkMovementTrackInput) : ActOut WorkMovementTrackOut :=
  match checkAuth session with
  | .err e => ⟨.err e, st, false⟩
  | .ok _ =>
    let workId := d.composerId ++ "/" ++ jsToLowerString d.catalogSystem ++ "-" ++ d.catalogNumber
    let workRow : WorkRow :=
      ⟨workId, d.composerId, d.formalName, d.nickname, d.catalogSystem, d.catalogNumber,
        d.yearComposed, d.form⟩
    let st1 := { st with works := upsertByKey WorkRow.id workRow st.works }
    let movementId := workId ++ "/" ++ toString d.movementNumber
    let movementRow : MovementRow := ⟨movementId, workId, d.movementNumber, d.movementName⟩
    let st2 := { st1 with movements := upsertByKey MovementRow.id movementRow st1.movements }
    let st3 := { st2 with trackMovements :=
      insertTrackMovementIgnore ⟨d.spotifyTrackId, movementId, none, none⟩ st2.trackMovements }
    ⟨.ok ⟨workId, movementId⟩, st3, false⟩

/-! ## Track reference extraction (the batch reconciliation endpoint)

Source regexes: `/spotify:track:([a-zA-Z0-9]+)/` and
`/open\.spotify\.com\/track\/([a-zA-Z0-9]+)/`, applied with `String.match`
(leftmost unanchored search, greedy capture).
-/

/-- Literal pattern match at the head of the list, returning the remainder. -/
def stripL : List Char → List Char → Option (List Char)
  | [], s => some s
  | _ :: _, [] => none
  | p :: ps, c :: cs => if p == c then stripL ps cs else none

/-- Leftmost unanchored search for `pat` followed by a nonempty alphanumeric
run; returns the greedy capture group. -/
def searchPat (pat : List Char) : List Char → Option (List Char)
  | [] => none
  | c :: cs =>
    match stripL pat (c :: cs) with
    | some rest =>
      let run := rest.takeWhile isAsciiAlnumChar
      if run.isEmpty then searchPat pat cs else some run
    | none => searchPat pat cs

/-- The endpoint's track id extraction: URI pattern first, then URL pattern. -/
def extractTrackId (s : String) : Option String :=
  match searchPat "spotify:track:".data s.data with
  | some r => some ⟨r⟩
  | none =>
    match searchPat "open.spotify.com/track/".data s.data with
    | some r => some ⟨r⟩
    | none => none

/-! ## The track metadata POST endpoint (Track Reconciliation Service) -/

structure SpArtistData where
  id : String
  name : String
  uri : String
deriving DecidableEq

structure SpAlbumData where
  id : String
  name : String
  uri : String
  release_date : String
  popularity : Option Int
deriving DecidableEq

structure SpTrackData where
  id : String
  name : String
  uri : String
  duration_ms : Int
  track_number : Int
  popularity : Option Int
  artists : List SpArtistData
  album : SpAlbumData
deriving DecidableEq

/-- Outcome of the Provider's track fetch: full data, or a non-success HTTP
status with the optional `error.message` of the JSON error body. -/
inductive ProviderResult where
  | ok (t : SpTrackData)
  | err (status : Nat) (message : Option String)
deriving DecidableEq

structure AnnotatedArtist where
  id : String
  name : String
  uri : String
  inSpotifyArtistsTable : Bool
  inComposersTable : Bool
  composerId : Option String
deriving DecidableEq

structure Annotated where
  id : String
  name : String
  uri : String
  inSpotifyTracksTable : Bool
  inSpotifyAlbumsTable : Bool
  artists : List AnnotatedArtist
  dbTrack : Option TrackRow
  dbAlbum : Option AlbumRow
  dbArtists : List ArtistRow
  dbComposers : List ComposerRow
  dbTrackMovements : List TrackMovementRow
  dbMovements : List MovementRow
  dbWorks : List WorkRow
deriving DecidableEq

/-- The endpoint's read-only cross-referencing of the fetched track against
the store, including the TrackMovement -> Movement -> Work -> Composer chain
that silently truncates when any hop is empty. -/
def reconcileTrack (st : Store) (t : SpTrackData) : Annotated :=
  let artistIds := t.artists.map SpArtistData.id
  let existingSpotifyArtists := st.spotifyArtists.filter (fun a => artistIds.contains a.spotifyId)
  let existingComposers := st.composers.filter (fun c => artistIds.contains c.spotifyArtistId)
  let existingAlbum := st.spotifyAlbums.filter (fun a => a.spotifyId == t.album.id)
  let existingTrack := st.spotifyTracks.filter (fun r => r.spotifyId == t.id)
  let trackMovementRecords :=
    if !existingTrack.isEmpty then
      st.trackMovements.filter (fun tm => tm.spotifyTrackId == t.id)
    else []
  let movementsData :=
    if !trackMovementRecords.isEmpty then
      st.movements.filter (fun m => trackMovementRecords.any (fun tm => tm.movementId == m.id))
    else []
  let workIds := movementsData.map MovementRow.workId
  let worksData :=
    if !trackMovementRecords.isEmpty && !workIds.isEmpty then
      st.works.filter (fun w => workIds.contains w.id)
    else []
  let composerIds := worksData.map WorkRow.composerId
  let composersData :=
    if !trackMovementRecords.isEmpty && !workIds.isEmpty && !composerIds.isEmpty then
      st.composers.filter (fun c => composerIds.contains c.id)
    else []
  { id := t.id, name := t.name, uri := t.uri,
    inSpotifyTracksTable := !existingTrack.isEmpty,
    inSpotifyAlbumsTable := !existingAlbum.isEmpty,
    artists := t.artists.map (fun a =>
      { id := a.id, name := a.name, uri := a.uri,
        inSpotifyArtistsTable := existingSpotifyArtists.any (fun r => r.spotifyId == a.id),
        inComposersTable := existingComposers.any (fun c => c.spotifyArtistId == a.id),
        composerId := (existingComposers.find? (fun c => c.spotifyArtistId == a.id)).map ComposerRow.id }),
    dbTrack := existingTrack.head?, dbAlbum := existingAlbum.head?,
    dbArtists := existingSpotifyArtists, dbComposers := composersData,
    dbTrackMovements := trackMovementRecords, dbMovements := movementsData,
    dbWorks := worksData }

structure EndpointOut where
  status : Nat
  errMsg : Option String
  annotated : Option Annotated
  store : Store
  providerCalled : Bool
deriving DecidableEq

/-- The track metadata POST endpoint: session check, operator check, body
check, reference extraction, token check, Provider fetch, then the read-only
reconciliation.  `body = none` models a missing or non-string `trackUri`. -/
def trackPOST (st : Store) (session : Option Session) (body : Option String)
    (token : Option String) (provider : String → ProviderResult) : EndpointOut :=
  match session with
  | none => ⟨401, some "Unauthorized", none, st, false⟩
  | some s =>
    if s.name = "benwaffle" then
      match body with
      | none => ⟨400, some "Invalid track URI", none, st, false⟩
      | some trackUri =>
        if trackUri = "" then ⟨400, some "Invalid track URI", none, st, false⟩
        else
          match extractTrackId trackUri with
          | none => ⟨400, some "Invalid Spotify track URI or URL format", none, st, false⟩
          | some trackId =>
            match token with
            | none => ⟨401, some "No Spotify access token", none, st, false⟩
            | some _ =>
              match provider trackId with
              | .err status message =>
                ⟨status, some (message.getD "Failed to fetch track from Spotify"), none, st, true⟩
              | .ok t => ⟨200, none, some (reconcileTrack st t), st, true⟩
    else ⟨403, some "Access denied", none, st, false⟩

structure ComposerPOSTOut where
  status : Nat
  errMsg : Option String
  composerRow : Option ComposerRow
  store : Store
deriving DecidableEq

/-- The composer POST endpoint: session check, operator check, required-field
check, slug derivation, plain insert; an insert failure surfaces as 500. -/
def composerPOST (st : Store) (session : Option Session)
    (spotifyArtistId name : Option String) : ComposerPOSTOut :=
  match session with
  | none => ⟨401, some "Unauthorized", none, st⟩
  | some s =>
    if s.name = "benwaffle" then
      match spotifyArtistId, name with
      | some aid, some nm =>
        if aid = "" || nm = "" then ⟨400, some "Missing required fields", none, st⟩
        else
          let row : ComposerRow := ⟨slugify nm, nm, aid⟩
          if composerInsertConflicts st row then
            ⟨500, some "Failed to add composer", none, st⟩
          else ⟨200, none, some row, { st with composers := st.composers ++ [row] }⟩
      | _, _ => ⟨400, some "Missing required fields", none, st⟩
    else ⟨403, some "Access denied", none, st⟩

/-! ## The admin UI's movement-number inference (`AlbumTracksTable.tsx`) -/

structure ParsedMeta where
  composerName : Option String
  catalogSystem : Option String
  catalogNumber : Option String
  movement : Option Nat
deriving DecidableEq

structure UiWork where
  catalogSystem : Option String
  catalogNumber : Option String
deriving DecidableEq

structure UiComposer where
  name : String
deriving DecidableEq

/-- The UI's per-track view: live fields plus `parsed` (inference output) and
the `dbData` chain results (empty lists model absent data). -/
structure TrackData where
  id : String
  albumId : String
  track_number : Int
  parsed : Option ParsedMeta
  dbWorks : List UiWork
  dbComposers : List UiComposer
deriving DecidableEq

/-- JS truthiness of a parsed movement number (`null` and `0` are falsy). -/
def movTruthy : Option Nat → Bool
  | some n => !(n == 0)
  | none => false

/-- `t.parsed?.catalogSystem === parsed.catalogSystem && ...`: with `t.parsed`
absent the optional chain yields `undefined`, which never equals a
string-or-null field. -/
def parsedMatch (t : TrackData) (p : ParsedMeta) : Bool :=
  match t.parsed with
  | none => false
  | some q =>
    q.catalogSystem == p.catalogSystem && q.catalogNumber == p.catalogNumber &&
    q.composerName == p.composerName

/-- `t.dbData?.works?.some(w => w.catalogSystem === parsed.catalogSystem &&
w.catalogNumber === parsed.catalogNumber)` - composer is not compared here. -/
def dbWorkMatch (t : TrackData) (p : ParsedMeta) : Bool :=
  t.dbWorks.any (fun w => w.catalogSystem == p.catalogSystem && w.catalogNumber == p.catalogNumber)

/-- The filter building `sameWorkTracks` in `getInferredMovement`. -/
def codeGroup (tracks : List TrackData) (track : TrackData) (p : ParsedMeta) : List TrackData :=
  tracks.filter (fun t => t.albumId == track.albumId && (parsedMatch t p || dbWorkMatch t p))

def trackLe (a b : TrackData) : Prop := a.track_number ≤ b.track_number

instance : DecidableRel trackLe :=
  fun a b => inferInstanceAs (Decidable (a.track_number ≤ b.track_number))

instance : IsTotal TrackData trackLe := ⟨fun a b => Int.le_total a.track_number b.track_number⟩

instance : IsTrans TrackData trackLe := ⟨fun _ _ _ h1 h2 => le_trans h1 h2⟩

/-- `Array.prototype.findIndex`: first index satisfying the predicate, `-1`
when there is none. -/
def findIndexJs {α : Type} (p : α → Bool) : List α → Int
  | [] => -1
  | a :: as =>
    if p a then 0
    else
      let r := findIndexJs p as
      if r < 0 then -1 else r + 1

/-- `getInferredMovement` from `AlbumTracksTable.tsx`: `null` without parsed
data or with a truthy explicit movement number; otherwise the 1-based position
of the track in the same-work group sorted by `track_number` (a stable sort,
as JS `Array.prototype.sort`), or `1` when the group has at most one member. -/
def getInferredMovement (tracks : List TrackData) (track : TrackData) : Option Int :=
  match track.parsed with
  | none => none
  | some p =>
    if movTruthy p.movement then none
    else
      let sameWorkTracks := List.insertionSort trackLe (codeGroup tracks track p)
      if 1 < sameWorkTracks.length then
        let position := findIndexJs (fun t => t.id == track.id) sameWorkTracks
        if 0 ≤ position then some (position + 1) else some (-1)
      else some 1

/-- Following the spec's words for the claim: the per-track
`(catalog system, catalog number, composer name)` tuple, matched either from
freshly parsed data or from existing Store links. -/
def claimTuple (t : TrackData) : Option (Option String × Option String × Option String) :=
  match t.parsed with
  | some p => some (p.catalogSystem, p.catalogNumber, p.composerName)
  | none =>
    match t.dbWorks.head?, t.dbComposers.head? with
    | some w, some c => some (w.catalogSystem, w.catalogNumber, some c.name)
    | _, _ => none

/-- Following the spec's words for the claim: the group of currently-loaded
tracks sharing the same album and the same full tuple. -/
def claimGroup (tracks : List TrackData) (track : TrackData) : List TrackData :=
  tracks.filter (fun t => t.albumId == track.albumId && claimTuple t == claimTuple track)

/-- Following the spec's words for the claim: the 1-based rank by
position-in-album ascending within `claimGroup`, `1` for a singleton group. -/
def claimInferredMovement (tracks : List TrackData) (track : TrackData) : Option Int :=
  match track.parsed with
  | none => none
  | some p =>
    if movTruthy p.movement then none
    else
      let g := List.insertionSort trackLe (claimGroup tracks track)
      if g.length ≤ 1 then some 1
      else
        let position := findIndexJs (fun t => t.id == track.id) g
        if 0 ≤ position then some (position + 1) else some (-1)

/-- Last element of a character list (`none` when empty). -/
def lastCh : List Char → Option Char
  | [] => none
  | [c] => some c
  | _ :: c :: cs => lastCh (c :: cs)

/-- The final alphabet of `slugify`: lowercase ASCII letters, digits, hyphen. -/
def slugOutChar (c : Char) : Bool :=
  isAsciiLowerAlpha c || isDigitChar c || c == '-'

/-! ## Concrete scenarios used by witnesses and counterexamples -/

/-- Parsed metadata with no explicit movement number. -/
def cexParsed : ParsedMeta := ⟨some "Beethoven", some "Op", some "67", none⟩

/-- A track whose parse yielded Beethoven Op. 67, album position 2. -/
def cexTrackA : TrackData := ⟨"A", "X", 2, some cexParsed, [], []⟩

/-- A track with no parse but an existing Store link to an Op. 67 work by a
different composer (Brahms), album position 1. -/
def cexTrackB : TrackData := ⟨"B", "X", 1, none, [⟨some "Op", some "67"⟩], [⟨"Brahms"⟩]⟩

def cexTracks : List TrackData := [cexTrackA, cexTrackB]

/-- Three same-work tracks at album positions 5, 3 and 7 (the spec's example). -/
def exTrack5 : TrackData := ⟨"t5", "alb", 5, some cexParsed, [], []⟩

def exTrack3 : TrackData := ⟨"t3", "alb", 3, some cexParsed, [], []⟩

def exTrack7 : TrackData := ⟨"t7", "alb", 7, some cexParsed, [], []⟩

def exTracks537 : List TrackData := [exTrack5, exTrack3, exTrack7]

/-- A Provider stub returning popularity 50 for every id. -/
def constPop : String → Option Int := fun _ => some 50

/-- A Provider stub answering every track fetch with HTTP 404. -/
def providerErr404 : String → ProviderResult := fun _ => .err 404 (some "Track not found")

/-! ## Character-class facts -/

theorem ws_iff (c : Char) : jsIsWhitespace c = true ↔
    (c.toNat = 32 ∨ c.toNat = 9 ∨ c.toNat = 10 ∨ c.toNat = 11 ∨ c.toNat = 12 ∨
     c.toNat = 13 ∨ c.toNat = 160 ∨ c.toNat = 5760 ∨
     (8192 ≤ c.toNat ∧ c.toNat ≤ 8202) ∨ c.toNat = 8232 ∨ c.toNat = 8233 ∨
     c.toNat = 8239 ∨ c.toNat = 8287 ∨ c.toNat = 12288 ∨ c.toNat = 65279) := by
  simp [jsIsWhitespace, Bool.or_eq_true, Bool.and_eq_true, beq_iff_eq,
    decide_eq_true_eq, or_assoc]

theorem lower_iff (c : Char) :
    isAsciiLowerAlpha c = true ↔ (97 ≤ c.toNat ∧ c.toNat ≤ 122) := by
  simp [isAsciiLowerAlpha, Bool.and_eq_true, decide_eq_true_eq]

theorem upper_iff (c : Char) :
    isAsciiUpperAlpha c = true ↔ (65 ≤ c.toNat ∧ c.toNat ≤ 90) := by
  simp [isAsciiUpperAlpha, Bool.and_eq_true, decide_eq_true_eq]

theorem digit_iff (c : Char) :
    isDigitChar c = true ↔ (48 ≤ c.toNat ∧ c.toNat ≤ 57) := by
  simp [isDigitChar, Bool.and_eq_true, decide_eq_true_eq]

theorem slugOut_iff (c : Char) : slugOutChar c = true ↔
    ((97 ≤ c.toNat ∧ c.toNat ≤ 122) ∨ (48 ≤ c.toNat ∧ c.toNat ≤ 57) ∨ c = '-') := by
  simp only [slugOutChar, Bool.or_eq_true, lower_iff, digit_iff, beq_iff_eq]
  tauto

theorem slugOut_not_ws {c : Char} (h : slugOutChar c = true) : jsIsWhitespace c = false := by
  rw [← Bool.not_eq_true, ws_iff]
  rcases (slugOut_iff c).mp h with h1 | h1 | h1
  · omega
  · omega
  · subst h1; decide

theorem slugOut_toLower {c : Char} (h : slugOutChar c = true) : jsToLowerChars c = [c] := by
  rcases (slugOut_iff c).mp h with h1 | h1 | h1
  · unfold jsToLowerChars
    rw [if_neg (by rw [upper_iff]; omega), if_neg (by omega), if_neg (by omega)]
  · unfold jsToLowerChars
    rw [if_neg (by rw [upper_iff]; omega), if_neg (by omega), if_neg (by omega)]
  · subst h1; decide

theorem slugOut_keep {c : Char} (h : slugOutChar c = true) : slugKeepChar c = true := by
  simp only [slugOutChar, Bool.or_eq_true] at h
  simp only [slugKeepChar, Bool.or_eq_true]
  rcases h with (h | h) | h
  · exact Or.inl (Or.inl (Or.inl h))
  · exact Or.inl (Or.inl (Or.inr h))
  · exact Or.inr h

theorem keep_not_ws_slugOut {c : Char} (h1 : slugKeepChar c = true)
    (h2 : jsIsWhitespace c = false) : slugOutChar c = true := by
  simp only [slugKeepChar, Bool.or_eq_true] at h1
  simp only [slugOutChar, Bool.or_eq_true]
  rcases h1 with ((h | h) | h) | h
  · exact Or.inl (Or.inl h)
  · exact Or.inl (Or.inr h)
  · rw [h] at h2; exact absurd h2 (by decide)
  · exact Or.inr h

theorem ws_not_upper {c : Char} (h : jsIsWhitespace c = true) :
    isAsciiUpperAlpha c = false := by
  rw [← Bool.not_eq_true, upper_iff]
  rw [ws_iff] at h
  omega

theorem ws_toLower {c : Char} (h : jsIsWhitespace c = true) : jsToLowerChars c = [c] := by
  have hn := (ws_iff c).mp h
  unfold jsToLowerChars
  rw [if_neg (by rw [ws_not_upper h]; simp), if_neg (by omega), if_neg (by omega)]

theorem ws_keep {c : Char} (h : jsIsWhitespace c = true) : slugKeepChar c = true := by
  simp only [slugKeepChar, Bool.or_eq_true]
  exact Or.inl (Or.inr h)

/-! Step equations for the run-collapsing helpers. -/

theorem collapseWsAux_cons_ws_true {c : Char} (rest : List Char)
    (hc : jsIsWhitespace c = true) : collapseWsAux true (c :: rest) = collapseWsAux true rest := by
  simp only [collapseWsAux, hc]
  simp

theorem collapseWsAux_cons_ws_false {c : Char} (rest : List Char)
    (hc : jsIsWhitespace c = true) :
    collapseWsAux false (c :: rest) = '-' :: collapseWsAux true rest := by
  simp only [collapseWsAux, hc]
  simp

theorem collapseWsAux_cons_not_ws {c : Char} (b : Bool) (rest : List Char)
    (hc : jsIsWhitespace c = false) :
    collapseWsAux b (c :: rest) = c :: collapseWsAux false rest := by
  simp only [collapseWsAux, hc]
  simp

theorem collapseHyAux_cons_hy_true (rest : List Char) :
    collapseHyAux true ('-' :: rest) = collapseHyAux true rest := by
  simp only [collapseHyAux]
  simp

theorem collapseHyAux_cons_hy_false (rest : List Char) :
    collapseHyAux false ('-' :: rest) = '-' :: collapseHyAux true rest := by
  simp only [collapseHyAux]
  simp

theorem collapseHyAux_cons_ne {x : Char} (b : Bool) (rest : List Char)
    (hx : (x == '-') = false) : collapseHyAux b (x :: rest) = x :: collapseHyAux false rest := by
  simp only [collapseHyAux, hx]
  simp

/-! ## Lemmas about the slug pipeline -/

theorem mem_collapseWsAux {c : Char} :
    ∀ (b : Bool) (l : List Char), c ∈ collapseWsAux b l → c = '-' ∨ c ∈ l := by
  intro b l
  induction l generalizing b with
  | nil => intro h; exact absurd h (List.not_mem_nil c)
  | cons x rest ih =>
    intro h
    unfold collapseWsAux at h
    split at h
    · split at h
      · rcases ih _ h with h1 | h2
        · exact Or.inl h1
        · exact Or.inr (List.mem_cons_of_mem _ h2)
      · rcases List.mem_cons.mp h with h1 | h2
        · exact Or.inl h1
        · rcases ih _ h2 with h3 | h4
          · exact Or.inl h3
          · exact Or.inr (List.mem_cons_of_mem _ h4)
    · rcases List.mem_cons.mp h with h1 | h2
      · exact Or.inr (h1 ▸ List.mem_cons_self _ _)
      · rcases ih _ h2 with h3 | h4
        · exact Or.inl h3
        · exact Or.inr (List.mem_cons_of_mem _ h4)

theorem noWs_collapseWsAux {c : Char} :
    ∀ (b : Bool) (l : List Char), c ∈ collapseWsAux b l → jsIsWhitespace c = false := by
  intro b l
  induction l generalizing b with
  | nil => intro h; exact absurd h (List.not_mem_nil c)
  | cons x rest ih =>
    intro h
    unfold collapseWsAux at h
    split at h
    · split at h
      · exact ih _ h
      · rcases List.mem_cons.mp h with h1 | h2
        · subst h1; decide
        · exact ih _ h2
    · rcases List.mem_cons.mp h with h1 | h2
      · subst h1
        rename_i hx
        exact Bool.not_eq_true _ |>.mp hx
      · exact ih _ h2

theorem collapseWsAux_eq_self :
    ∀ (b : Bool) (l : List Char), (∀ c ∈ l, jsIsWhitespace c = false) →
      collapseWsAux b l = l := by
  intro b l
  induction l generalizing b with
  | nil => intro _; rfl
  | cons x rest ih =>
    intro h
    unfold collapseWsAux
    rw [if_neg (by rw [h x (List.mem_cons_self _ _)]; simp)]
    rw [ih false (fun c hc => h c (List.mem_cons_of_mem _ hc))]

theorem mem_collapseHyAux {c : Char} :
    ∀ (b : Bool) (l : List Char), c ∈ collapseHyAux b l → c ∈ l := by
  intro b l
  induction l generalizing b with
  | nil => intro h; exact absurd h (List.not_mem_nil c)
  | cons x rest ih =>
    intro h
    unfold collapseHyAux at h
    split at h
    · rename_i hx
      split at h
      · exact List.mem_cons_of_mem _ (ih _ h)
      · rcases List.mem_cons.mp h with h1 | h2
        · rw [h1, ← beq_iff_eq.mp hx]
          exact List.mem_cons_self _ _
        · exact List.mem_cons_of_mem _ (ih _ h2)
    · rcases List.mem_cons.mp h with h1 | h2
      · exact h1 ▸ List.mem_cons_self _ _
      · exact List.mem_cons_of_mem _ (ih _ h2)

theorem collapseHyAux_idem :
    ∀ (l : List Char) (b : Bool), collapseHyAux b (collapseHyAux b l) = collapseHyAux b l := by
  intro l
  induction l with
  | nil => intro b; rfl
  | cons x rest ih =>
    intro b
    by_cases hx : (x == '-') = true
    · have hx' : x = '-' := beq_iff_eq.mp hx
      subst hx'
      cases b with
      | true =>
        rw [collapseHyAux_cons_hy_true, ih]
      | false =>
        rw [collapseHyAux_cons_hy_false, collapseHyAux_cons_hy_false, ih]
    · have hx' : (x == '-') = false := by
        rw [← Bool.not_eq_true]; exact hx
      rw [collapseHyAux_cons_ne b rest hx', collapseHyAux_cons_ne b _ hx', ih]

theorem collapseHyAux_eq_self_of_ne :
    ∀ (b : Bool) (l : List Char), (∀ c ∈ l, (c == '-') = false) → collapseHyAux b l = l := by
  intro b l
  induction l generalizing b with
  | nil => intro _; rfl
  | cons x rest ih =>
    intro h
    unfold collapseHyAux
    rw [if_neg (by rw [h x (List.mem_cons_self _ _)]; simp)]
    rw [ih false (fun c hc => h c (List.mem_cons_of_mem _ hc))]

theorem dropWhile_eq_self_of {p : Char → Bool} :
    ∀ l : List Char, (∀ c ∈ l, p c = false) → l.dropWhile p = l := by
  intro l h
  cases l with
  | nil => rfl
  | cons x rest =>
    rw [List.dropWhile_cons, if_neg]
    rw [h x (List.mem_cons_self _ _)]
    simp

theorem jsTrimList_eq_self {l : List Char}
    (h : ∀ c ∈ l, jsIsWhitespace c = false) : jsTrimList l = l := by
  unfold jsTrimList
  rw [dropWhile_eq_self_of l h]
  rw [dropWhile_eq_self_of l.reverse (fun c hc => h c (List.mem_reverse.mp hc))]
  exact List.reverse_reverse l

theorem mem_jsTrimList {c : Char} {l : List Char} (h : c ∈ jsTrimList l) : c ∈ l := by
  unfold jsTrimList at h
  have h1 := List.mem_reverse.mp h
  have h2 := (List.dropWhile_sublist _).subset h1
  have h3 := List.mem_reverse.mp h2
  exact (List.dropWhile_sublist _).subset h3

theorem map_eq_self_of {α : Type} {f : α → α} :
    ∀ l : List α, (∀ a ∈ l, f a = a) → l.map f = l := by
  intro l h
  induction l with
  | nil => rfl
  | cons x rest ih =>
    rw [List.map_cons, h x (List.mem_cons_self _ _),
      ih (fun a ha => h a (List.mem_cons_of_mem _ ha))]

theorem jsToLowerList_cons (c : Char) (rest : List Char) :
    jsToLowerList (c :: rest) = jsToLowerChars c ++ jsToLowerList rest := rfl

theorem jsToLowerList_eq_self :
    ∀ l : List Char, (∀ c ∈ l, jsToLowerChars c = [c]) → jsToLowerList l = l := by
  intro l h
  induction l with
  | nil => rfl
  | cons x rest ih =>
    rw [jsToLowerList_cons, h x (List.mem_cons_self _ _),
      ih (fun c hc => h c (List.mem_cons_of_mem _ hc))]
    rfl

theorem mem_jsToLowerList {c : Char} :
    ∀ l : List Char, c ∈ jsToLowerList l → ∃ x ∈ l, c ∈ jsToLowerChars x := by
  intro l
  induction l with
  | nil => intro h; exact absurd h (List.not_mem_nil c)
  | cons x rest ih =>
    intro h
    rw [jsToLowerList_cons] at h
    rcases List.mem_append.mp h with h1 | h1
    · exact ⟨x, List.mem_cons_self _ _, h1⟩
    · obtain ⟨y, hy, hcy⟩ := ih h1
      exact ⟨y, List.mem_cons_of_mem _ hy, hcy⟩

theorem jsToLowerChars_ne_nil (c : Char) : jsToLowerChars c ≠ [] := by
  unfold jsToLowerChars
  repeat' split
  all_goals exact List.cons_ne_nil _ _

theorem jsToLowerList_ne_nil {l : List Char} (h : l ≠ []) : jsToLowerList l ≠ [] := by
  cases l with
  | nil => exact absurd rfl h
  | cons x rest =>
    rw [jsToLowerList_cons]
    intro hc
    exact jsToLowerChars_ne_nil x (List.append_eq_nil.mp hc).1

/-- Every character of a slug is a lowercase ASCII letter, a digit or a hyphen. -/
theorem slug_chars (s : String) : ∀ c ∈ (slugify s).data, slugOutChar c = true := by
  intro c hc
  have hc3 : c ∈ collapseHyAux false (collapseWsAux false
      ((jsToLowerList s.data).filter slugKeepChar)) := mem_jsTrimList hc
  have hc2 : c ∈ collapseWsAux false ((jsToLowerList s.data).filter slugKeepChar) :=
    mem_collapseHyAux _ _ hc3
  have hnws : jsIsWhitespace c = false := noWs_collapseWsAux _ _ hc2
  rcases mem_collapseWsAux _ _ hc2 with h1 | h1
  · subst h1; decide
  · exact keep_not_ws_slugOut (List.of_mem_filter h1) hnws

theorem slug_noWs (s : String) : ∀ c ∈ (slugify s).data, jsIsWhitespace c = false :=
  fun c hc => slugOut_not_ws (slug_chars s c hc)

/-- C4 claim, slug idempotence. -/
theorem c4_slugify_idempotent :
    (∀ x : String, slugify (slugify x) = slugify x) ∧
    slugify "Ludwig van Beethoven" = "ludwig-van-beethoven" := by
  constructor
  · intro x
    have hchars := slug_chars x
    have hnws := slug_noWs x
    have hmap : jsToLowerList (slugify x).data = (slugify x).data :=
      jsToLowerList_eq_self _ (fun c hc => slugOut_toLower (hchars c hc))
    have hfilter : (slugify x).data.filter slugKeepChar = (slugify x).data :=
      List.filter_eq_self.mpr (fun c hc => slugOut_keep (hchars c hc))
    have hws : collapseWsAux false (slugify x).data = (slugify x).data :=
      collapseWsAux_eq_self false _ hnws
    have hdata : (slugify x).data = collapseHyAux false (collapseWsAux false
        ((jsToLowerList x.data).filter slugKeepChar)) := by
      have hd : (slugify x).data = jsTrimList (collapseHyAux false (collapseWsAux false
          ((jsToLowerList x.data).filter slugKeepChar))) := rfl
      rw [hd]
      exact jsTrimList_eq_self (fun c hc =>
        noWs_collapseWsAux _ _ (mem_collapseHyAux _ _ hc))
    have hhy : collapseHyAux false (slugify x).data = (slugify x).data := by
      conv_lhs => rw [hdata]
      rw [collapseHyAux_idem]
      exact hdata.symm
    show (⟨jsTrimList (collapseHyAux false (collapseWsAux false
      ((jsToLowerList (slugify x).data).filter slugKeepChar)))⟩ : String) = slugify x
    rw [hmap, hfilter, hws, hhy, jsTrimList_eq_self hnws]
  · decide

/-! ## Lemmas for the slug edge cases (C10) -/

theorem collapseWsAux_ne_nil : ∀ l : List Char, l ≠ [] → collapseWsAux false l ≠ [] := by
  intro l hl
  cases l with
  | nil => exact absurd rfl hl
  | cons x rest =>
    by_cases hx : jsIsWhitespace x = true
    · rw [collapseWsAux_cons_ws_false _ hx]
      exact List.cons_ne_nil _ _
    · rw [collapseWsAux_cons_not_ws false _ (by rw [← Bool.not_eq_true]; exact hx)]
      exact List.cons_ne_nil _ _

theorem collapseHyAux_ne_nil : ∀ l : List Char, l ≠ [] → collapseHyAux false l ≠ [] := by
  intro l hl
  cases l with
  | nil => exact absurd rfl hl
  | cons x rest =>
    by_cases hx : (x == '-') = true
    · rw [beq_iff_eq.mp hx, collapseHyAux_cons_hy_false]
      exact List.cons_ne_nil _ _
    · rw [collapseHyAux_cons_ne false _ (by rw [← Bool.not_eq_true]; exact hx)]
      exact List.cons_ne_nil _ _

theorem lastCh_cons {x : Char} {t : List Char} (h : t ≠ []) : lastCh (x :: t) = lastCh t := by
  cases t with
  | nil => exact absurd rfl h
  | cons y u => rfl

theorem lastCh_some_ne_nil {l : List Char} {c : Char} (h : lastCh l = some c) : l ≠ [] := by
  cases l with
  | nil => exact absurd h (by simp [lastCh])
  | cons x t => exact List.cons_ne_nil _ _

theorem lastCh_map (f : Char → Char) :
    ∀ l : List Char, lastCh (l.map f) = (lastCh l).map f := by
  intro l
  induction l with
  | nil => rfl
  | cons x rest ih =>
    cases rest with
    | nil => rfl
    | cons y t =>
      rw [List.map_cons, lastCh_cons (by simp), lastCh_cons (List.cons_ne_nil _ _)]
      exact ih

theorem lastCh_filter {p : Char → Bool} :
    ∀ (l : List Char) (c : Char), lastCh l = some c → p c = true →
      lastCh (l.filter p) = some c := by
  intro l
  induction l with
  | nil => intro c h _; exact absurd h (by simp [lastCh])
  | cons x rest ih =>
    intro c h hp
    cases rest with
    | nil =>
      have hx : x = c := by simpa [lastCh] using h
      subst hx
      rw [List.filter_cons_of_pos hp]
      rfl
    | cons y t =>
      rw [lastCh_cons (List.cons_ne_nil _ _)] at h
      have htail := ih c h hp
      rw [List.filter_cons]
      split
      · rw [lastCh_cons (lastCh_some_ne_nil htail)]
        exact htail
      · exact htail

theorem lastCh_append :
    ∀ (a b : List Char), b ≠ [] → lastCh (a ++ b) = lastCh b := by
  intro a
  induction a with
  | nil => intro b _; rfl
  | cons x a' ih =>
    intro b hb
    rw [List.cons_append,
      lastCh_cons (fun hc => hb (List.append_eq_nil.mp hc).2), ih b hb]

/-- Lowercasing preserves a final character that lowercases to itself. -/
theorem jsToLowerList_last :
    ∀ (l : List Char) (c : Char), lastCh l = some c → jsToLowerChars c = [c] →
      lastCh (jsToLowerList l) = some c := by
  intro l
  induction l with
  | nil => intro c h _; exact absurd h (by simp [lastCh])
  | cons x rest ih =>
    intro c h hself
    cases rest with
    | nil =>
      have hx : x = c := by simpa [lastCh] using h
      subst hx
      rw [jsToLowerList_cons, hself]
      rfl
    | cons y t =>
      rw [lastCh_cons (List.cons_ne_nil _ _)] at h
      rw [jsToLowerList_cons,
        lastCh_append _ _ (jsToLowerList_ne_nil (List.cons_ne_nil _ _))]
      exact ih c h hself

theorem collapseWs_lastCh :
    ∀ (l : List Char) (b : Bool) (c : Char), lastCh l = some c → jsIsWhitespace c = true →
      (lastCh (collapseWsAux b l) = some '-' ∨ collapseWsAux b l = []) := by
  intro l
  induction l with
  | nil => intro b c h _; exact absurd h (by simp [lastCh])
  | cons x rest ih =>
    intro b c h hw
    cases rest with
    | nil =>
      have hx : x = c := by simpa [lastCh] using h
      subst hx
      cases b with
      | true =>
        rw [collapseWsAux_cons_ws_true _ hw]
        exact Or.inr rfl
      | false =>
        rw [collapseWsAux_cons_ws_false _ hw]
        exact Or.inl rfl
    | cons y t =>
      rw [lastCh_cons (List.cons_ne_nil _ _)] at h
      by_cases hx : jsIsWhitespace x = true
      · cases b with
        | true =>
          rw [collapseWsAux_cons_ws_true _ hx]
          exact ih true c h hw
        | false =>
          rw [collapseWsAux_cons_ws_false _ hx]
          rcases ih true c h hw with h1 | h1
          · rw [lastCh_cons (lastCh_some_ne_nil h1)]
            exact Or.inl h1
          · rw [h1]
            exact Or.inl rfl
      · rw [collapseWsAux_cons_not_ws b _ (by rw [← Bool.not_eq_true]; exact hx)]
        rcases ih false c h hw with h1 | h1
        · rw [lastCh_cons (lastCh_some_ne_nil h1)]
          exact Or.inl h1
        · exact absurd h1 (collapseWsAux_ne_nil _ (List.cons_ne_nil _ _))

theorem collapseHy_lastCh :
    ∀ (l : List Char) (b : Bool), lastCh l = some '-' →
      (lastCh (collapseHyAux b l) = some '-' ∨ collapseHyAux b l = []) := by
  intro l
  induction l with
  | nil => intro b h; exact absurd h (by simp [lastCh])
  | cons x rest ih =>
    intro b h
    cases rest with
    | nil =>
      have hx : x = '-' := by simpa [lastCh] using h
      subst hx
      cases b with
      | true =>
        rw [collapseHyAux_cons_hy_true]
        exact Or.inr rfl
      | false =>
        rw [collapseHyAux_cons_hy_false]
        exact Or.inl rfl
    | cons y t =>
      rw [lastCh_cons (List.cons_ne_nil _ _)] at h
      by_cases hx : (x == '-') = true
      · rw [beq_iff_eq.mp hx]
        cases b with
        | true =>
          rw [collapseHyAux_cons_hy_true]
          exact ih true h
        | false =>
          rw [collapseHyAux_cons_hy_false]
          rcases ih true h with h1 | h1
          · rw [lastCh_cons (lastCh_some_ne_nil h1)]
            exact Or.inl h1
          · rw [h1]
            exact Or.inl rfl
      · rw [collapseHyAux_cons_ne b _ (by rw [← Bool.not_eq_true]; exact hx)]
        rcases ih false h with h1 | h1
        · rw [lastCh_cons (lastCh_some_ne_nil h1)]
          exact Or.inl h1
        · exact absurd h1 (collapseHyAux_ne_nil _ (List.cons_ne_nil _ _))

/-- C10 (amended): because trimming happens after whitespace is replaced with
hyphens, a name with leading (resp. trailing) whitespace slugifies to an
identifier with a leading (resp. trailing) hyphen; a name none of whose
characters lowercases to an ASCII letter or digit - which excludes
characters such as U+212A KELVIN SIGN, whose Unicode lowercase is the ASCII
letter `k` - slugifies to an empty or hyphens-only identifier; and
`addComposer` uses that identifier as the Composer row's primary key
unchecked. -/
theorem c10_slug_edge_cases :
    (∀ name : String, (∀ x ∈ name.data, ∀ c ∈ jsToLowerChars x, isAsciiAlnumChar c = false) →
        ∀ c ∈ (slugify name).data, c = '-') ∧
    (∀ (name : String) (c : Char) (rest : List Char), name.data = c :: rest →
        jsIsWhitespace c = true → (slugify name).data.head? = some '-') ∧
    (∀ (name : String) (c : Char), lastCh name.data = some c →
        jsIsWhitespace c = true → lastCh (slugify name).data = some '-') ∧
    (∀ (st : Store) (u aid nm : String),
        composerInsertConflicts st ⟨slugify nm, nm, aid⟩ = false →
        (addComposer st (some ⟨"benwaffle", u⟩) aid nm).result = .ok ⟨slugify nm, nm, aid⟩ ∧
        (⟨slugify nm, nm, aid⟩ : ComposerRow) ∈
          (addComposer st (some ⟨"benwaffle", u⟩) aid nm).store.composers) := by
  refine ⟨?_, ?_, ?_, ?_⟩
  · intro name h c hc
    have hc3 : c ∈ collapseHyAux false (collapseWsAux false
        ((jsToLowerList name.data).filter slugKeepChar)) := mem_jsTrimList hc
    have hc2 : c ∈ collapseWsAux false ((jsToLowerList name.data).filter slugKeepChar) :=
      mem_collapseHyAux _ _ hc3
    have hnws : jsIsWhitespace c = false := noWs_collapseWsAux _ _ hc2
    rcases mem_collapseWsAux _ _ hc2 with h1 | h1
    · exact h1
    · have hk := List.of_mem_filter h1
      have hm := List.mem_of_mem_filter h1
      obtain ⟨x, hx, hcx⟩ := mem_jsToLowerList _ hm
      have ha := h x hx c hcx
      simp only [isAsciiAlnumChar, Bool.or_eq_false_iff] at ha
      simp only [slugKeepChar, Bool.or_eq_true, beq_iff_eq] at hk
      rcases hk with ((hl | hd) | hw) | hh
      · exact absurd hl (by rw [ha.1.1]; simp)
      · exact absurd hd (by rw [ha.2]; simp)
      · exact absurd hw (by rw [hnws]; simp)
      · exact hh
  · intro name c rest hnd hw
    have hfil : (jsToLowerList name.data).filter slugKeepChar =
        c :: (jsToLowerList rest).filter slugKeepChar := by
      rw [hnd, jsToLowerList_cons, ws_toLower hw, List.singleton_append,
        List.filter_cons_of_pos (ws_keep hw)]
    have hd : (slugify name).data = jsTrimList (collapseHyAux false (collapseWsAux false
        ((jsToLowerList name.data).filter slugKeepChar))) := rfl
    rw [hd, hfil, collapseWsAux_cons_ws_false _ hw, collapseHyAux_cons_hy_false]
    rw [jsTrimList_eq_self]
    · rfl
    · intro d hdm
      rcases List.mem_cons.mp hdm with h1 | h1
      · subst h1; decide
      · exact noWs_collapseWsAux _ _ (mem_collapseHyAux _ _ h1)
  · intro name cw hlast hw
    have h0 : lastCh (jsToLowerList name.data) = some cw :=
      jsToLowerList_last _ cw hlast (ws_toLower hw)
    have h1 : lastCh ((jsToLowerList name.data).filter slugKeepChar) = some cw :=
      lastCh_filter _ _ h0 (ws_keep hw)
    have hne1 := lastCh_some_ne_nil h1
    rcases collapseWs_lastCh _ false cw h1 hw with h2 | h2
    · rcases collapseHy_lastCh _ false h2 with h3 | h3
      · have hd : (slugify name).data = jsTrimList (collapseHyAux false (collapseWsAux false
            ((jsToLowerList name.data).filter slugKeepChar))) := rfl
        rw [hd, jsTrimList_eq_self]
        · exact h3
        · intro d hdm
          exact noWs_collapseWsAux _ _ (mem_collapseHyAux _ _ hdm)
      · exact absurd h3 (collapseHyAux_ne_nil _ (lastCh_some_ne_nil h2))
    · exact absurd h2 (collapseWsAux_ne_nil _ hne1)
  · intro st u aid nm hconf
    constructor
    · show (addComposer st (some ⟨"benwaffle", u⟩) aid nm).result = _
      unfold addComposer checkAuth
      simp [hconf]
    · show _ ∈ (addComposer st (some ⟨"benwaffle", u⟩) aid nm).store.composers
      unfold addComposer checkAuth
      simp [hconf]

/-- C10 counterexample: U+212A KELVIN SIGN is not an ASCII letter or digit,
yet `toLowerCase` maps it to the ASCII letter `k`, so the slug of the
one-character name U+212A is `"k"` - neither empty nor hyphens-only. -/
theorem c10_counterexample :
    (∀ c ∈ "\u212A".data, isAsciiAlnumChar c = false) ∧
    slugify "\u212A" = "k" ∧
    ¬(∀ c ∈ (slugify "\u212A").data, c = '-') := by
  refine ⟨by decide, by decide, by decide⟩

/-- Witness for C10 at concrete names. -/
theorem c10_slug_edge_cases_witness :
    (slugify " Bach").data.head? = some '-' ∧
    lastCh (slugify "Bach ").data = some '-' ∧
    (addComposer emptyStore (some ⟨"benwaffle", "u1"⟩) "sp7" "Чайковский").result =
      .ok ⟨"", "Чайковский", "sp7"⟩ := by
  refine ⟨?_, ?_, ?_⟩
  · exact c10_slug_edge_cases.2.1 " Bach" ' ' "Bach".data (by decide) (by decide)
  · exact c10_slug_edge_cases.2.2.1 "Bach " ' ' (by decide) (by decide)
  · have h := c10_slug_edge_cases.2.2.2 emptyStore "u1" "sp7" "Чайковский" (by decide)
    have hs : slugify "Чайковский" = "" := by decide
    rw [hs] at h
    exact h.1

/-! ## Lemmas for movement-number inference (C1) -/

/-- In a list sorted by track number, with unique ids and unique track
numbers, `findIndex` of the track equals the number of strictly earlier
tracks. -/
theorem findIndexJs_sorted (track : TrackData) :
    ∀ s : List TrackData, List.Sorted trackLe s → track ∈ s →
      (∀ t ∈ s, t.id = track.id → t = track) →
      (∀ t ∈ s, t.track_number = track.track_number → t = track) →
      findIndexJs (fun t => t.id == track.id) s =
        (s.countP (fun t => decide (t.track_number < track.track_number)) : Int) := by
  intro s
  induction s with
  | nil => intro _ hmem _ _; exact absurd hmem (List.not_mem_nil _)
  | cons y ys ih =>
    intro hsort hmem hid hkey
    by_cases hy : y.id = track.id
    · have hyt : y = track := hid y (List.mem_cons_self _ _) hy
      subst hyt
      have hcnt : ys.countP (fun t => decide (t.track_number < y.track_number)) = 0 := by
        rw [List.countP_eq_zero]
        intro a ha
        have hle : y.track_number ≤ a.track_number := List.rel_of_sorted_cons hsort a ha
        simp only [decide_eq_true_eq]
        omega
      simp only [findIndexJs, beq_self_eq_true, if_true, List.countP_cons, hcnt,
        decide_eq_true_eq, lt_irrefl, if_false]
      rfl
    · have hyne : y ≠ track := fun h => hy (by rw [h])
      have hmem' : track ∈ ys := by
        rcases List.mem_cons.mp hmem with h | h
        · exact absurd h.symm hyne
        · exact h
      have ihres := ih hsort.of_cons hmem'
        (fun t ht => hid t (List.mem_cons_of_mem _ ht))
        (fun t ht => hkey t (List.mem_cons_of_mem _ ht))
      have hlt : y.track_number < track.track_number := by
        have hle : y.track_number ≤ track.track_number :=
          List.rel_of_sorted_cons hsort track hmem'
        have hne : y.track_number ≠ track.track_number := fun h =>
          hyne (hkey y (List.mem_cons_self _ _) h)
        omega
      have hby : (y.id == track.id) = false := beq_eq_false_iff_ne.mpr hy
      simp only [findIndexJs, hby, if_false, ihres, List.countP_cons,
        decide_eq_true_eq, hlt, if_true]
      rw [if_neg (not_lt.mpr (Int.natCast_nonneg _))]
      push_cast
      ring

/-- C1 (amended): when the parser yields no explicit movement number, the
inferred movement number is one plus the number of group members with a
strictly smaller position-in-album, where the group contains the same-album
tracks matching the parsed (catalog system, catalog number, composer name)
tuple or holding a Store work link with the same catalog system and catalog
number (composer is not compared on the Store-link side); for a singleton
group this value is 1. -/
theorem c1_inferred_movement_amended (tracks : List TrackData) (track : TrackData)
    (p : ParsedMeta)
    (hp : track.parsed = some p) (hm : movTruthy p.movement = false)
    (hmem : track ∈ tracks)
    (hid : ∀ t ∈ tracks, t.id = track.id → t = track)
    (hkey : ∀ t ∈ codeGroup tracks track p, t.track_number = track.track_number → t = track) :
    getInferredMovement tracks track =
      some (((codeGroup tracks track p).countP
        (fun t => decide (t.track_number < track.track_number)) : Int) + 1) := by
  have hg : track ∈ codeGroup tracks track p := by
    refine List.mem_filter.mpr ⟨hmem, ?_⟩
    simp [parsedMatch, hp]
  have hperm : List.Perm (List.insertionSort trackLe (codeGroup tracks track p))
      (codeGroup tracks track p) :=
    List.perm_insertionSort trackLe _
  have hsort : List.Sorted trackLe (List.insertionSort trackLe (codeGroup tracks track p)) :=
    List.sorted_insertionSort trackLe _
  have hmems : track ∈ List.insertionSort trackLe (codeGroup tracks track p) :=
    hperm.mem_iff.mpr hg
  have hids : ∀ t ∈ List.insertionSort trackLe (codeGroup tracks track p),
      t.id = track.id → t = track :=
    fun t ht => hid t (List.mem_of_mem_filter (hperm.subset ht))
  have hkeys : ∀ t ∈ List.insertionSort trackLe (codeGroup tracks track p),
      t.track_number = track.track_number → t = track :=
    fun t ht => hkey t (hperm.subset ht)
  have hfind := findIndexJs_sorted track _ hsort hmems hids hkeys
  have hcount : (List.insertionSort trackLe (codeGroup tracks track p)).countP
        (fun t => decide (t.track_number < track.track_number)) =
      (codeGroup tracks track p).countP
        (fun t => decide (t.track_number < track.track_number)) := hperm.countP_eq _
  unfold getInferredMovement
  rw [hp]
  simp only [hm, Bool.false_eq_true, if_false]
  by_cases hlen : 1 < (List.insertionSort trackLe (codeGroup tracks track p)).length
  · rw [if_pos hlen, hfind, hcount]
    rw [if_pos (Int.natCast_nonneg _)]
  · rw [if_neg hlen]
    have hpos : 0 < (List.insertionSort trackLe (codeGroup tracks track p)).length :=
      List.length_pos.mpr (List.ne_nil_of_mem hmems)
    have hlen1 : (List.insertionSort trackLe (codeGroup tracks track p)).length = 1 := by omega
    obtain ⟨a, ha⟩ := List.length_eq_one.mp hlen1
    have hat : a = track := by
      have h := hmems
      rw [ha] at h
      exact (List.mem_singleton.mp h).symm
    have hc0 : (codeGroup tracks track p).countP
        (fun t => decide (t.track_number < track.track_number)) = 0 := by
      rw [← hcount, ha, hat]
      simp
    rw [hc0]
    norm_num

/-- C1 counterexample: with a same-album track holding a Store work link to
the same catalog system and number under a different composer, the code's
group has two members (the Store-link match ignores the composer name), so
the code infers 2 while the claim's composer-sharing grouping predicts 1. -/
theorem c1_counterexample :
    getInferredMovement cexTracks cexTrackA = some 2 ∧
    claimInferredMovement cexTracks cexTrackA = some 1 := by
  constructor <;> decide

/-- Witness for the amended C1 on the spec's example: positions 5, 3, 7
receive inferred numbers 2, 1, 3. -/
theorem c1_inferred_movement_amended_witness :
    getInferredMovement exTracks537 exTrack5 = some 2 ∧
    getInferredMovement exTracks537 exTrack3 = some 1 ∧
    getInferredMovement exTracks537 exTrack7 = some 3 := by
  refine ⟨?_, by decide, by decide⟩
  have h := c1_inferred_movement_amended exTracks537 exTrack5 cexParsed (by decide) (by decide)
    (by decide) (by decide) (by decide)
  rw [h]
  decide

/-! ## Lemmas for the album-year derivation (C2) -/

theorem digit_not_ws {c : Char} (h : isDigitChar c = true) : jsIsWhitespace c = false := by
  rw [← Bool.not_eq_true, ws_iff]
  rw [digit_iff] at h
  omega

theorem takeWhile_all {p : Char → Bool} :
    ∀ l : List Char, (∀ c ∈ l, p c = true) → l.takeWhile p = l := by
  intro l h
  induction l with
  | nil => rfl
  | cons x rest ih =>
    rw [List.takeWhile_cons, if_pos (h x (List.mem_cons_self _ _)),
      ih (fun c hc => h c (List.mem_cons_of_mem _ hc))]

/-- `parseInt` on a nonempty all-digit string reads the whole string as a
decimal number. -/
theorem parseIntL_digits (ds : List Char) (hne : ds ≠ [])
    (hdig : ∀ c ∈ ds, isDigitChar c = true) :
    parseIntL ds = some ((decimalVal ds : Int)) := by
  cases ds with
  | nil => exact absurd rfl hne
  | cons c rest =>
    have hc := hdig c (List.mem_cons_self _ _)
    have hcw : jsIsWhitespace c = false := digit_not_ws hc
    have hdrop : (c :: rest).dropWhile jsIsWhitespace = c :: rest := by
      rw [List.dropWhile_cons, if_neg (by rw [hcw]; simp)]
    have hcneg : (c == '-') = false := by
      rw [beq_eq_false_iff_ne]
      intro h
      rw [h] at hc
      exact absurd hc (by decide)
    have hcplus : (c == '+') = false := by
      rw [beq_eq_false_iff_ne]
      intro h
      rw [h] at hc
      exact absurd hc (by decide)
    have htake : (c :: rest).takeWhile isDigitChar = c :: rest := takeWhile_all _ hdig
    cases rest with
    | nil =>
      simp [parseIntL, hdrop, hcneg, hcplus, htake]
    | cons c1 rest' =>
      have hc1 := hdig c1 (List.mem_cons_of_mem _ (List.mem_cons_self _ _))
      have hx : (c1 == 'x') = false := by
        rw [beq_eq_false_iff_ne]
        intro h
        rw [h] at hc1
        exact absurd hc1 (by decide)
      have hX : (c1 == 'X') = false := by
        rw [beq_eq_false_iff_ne]
        intro h
        rw [h] at hc1
        exact absurd hc1 (by decide)
      simp [parseIntL, hdrop, hcneg, hcplus, hx, hX, htake]

/-- When the leading segment before the first hyphen is a nonempty digit run,
the derived year is that run's decimal value. -/
theorem deriveYear_digit_seg (rd : String) (ds : List Char)
    (hseg : rd.data.takeWhile (fun c => !(c == '-')) = ds) (hne : ds ≠ [])
    (hdig : ∀ c ∈ ds, isDigitChar c = true) : deriveYear rd = .num (decimalVal ds) := by
  have hrd : rd ≠ "" := by
    intro h
    subst h
    exact hne (hseg.symm.trans rfl)
  unfold deriveYear
  rw [if_neg hrd, hseg, parseIntL_digits ds hne hdig]

/-- When the release date starts with a character that is not a digit, not
whitespace and not a sign, the derived year is `NaN` (not `null`). -/
theorem deriveYear_nan (rd : String) (c : Char) (cs : List Char)
    (hdata : rd.data = c :: cs) (hd : isDigitChar c = false) (hw : jsIsWhitespace c = false)
    (hm : c ≠ '-') (hp : c ≠ '+') : deriveYear rd = .nan := by
  have hrd : rd ≠ "" := by
    intro h
    subst h
    exact List.cons_ne_nil c cs hdata.symm
  have hcm : (c == '-') = false := beq_eq_false_iff_ne.mpr hm
  have hcp : (c == '+') = false := beq_eq_false_iff_ne.mpr hp
  have hc0 : (c == '0') = false := by
    rw [beq_eq_false_iff_ne]
    intro h
    rw [h] at hd
    exact absurd hd (by decide)
  have hseg : rd.data.takeWhile (fun x => !(x == '-')) =
      c :: cs.takeWhile (fun x => !(x == '-')) := by
    rw [hdata, List.takeWhile_cons, if_pos (by rw [hcm]; simp)]
  have hdrop : (c :: cs.takeWhile (fun x => !(x == '-'))).dropWhile jsIsWhitespace =
      c :: cs.takeWhile (fun x => !(x == '-')) := by
    rw [List.dropWhile_cons, if_neg (by rw [hw]; simp)]
  have htake : (c :: cs.takeWhile (fun x => !(x == '-'))).takeWhile isDigitChar = [] := by
    rw [List.takeWhile_cons, if_neg (by rw [hd]; simp)]
  unfold deriveYear
  rw [if_neg hrd, hseg]
  cases h1 : cs.takeWhile (fun x => !(x == '-')) with
  | nil =>
    rw [h1] at hdrop htake
    simp [parseIntL, hdrop, hcm, hcp, htake]
  | cons d1 ds' =>
    rw [h1] at hdrop htake
    simp [parseIntL, hdrop, hcm, hcp, hc0, htake]

/-- The row passed to an upsert is always present afterwards. -/
theorem mem_upsertByKey {α : Type} (key : α → String) (r : α) (l : List α) :
    r ∈ upsertByKey key r l := by
  unfold upsertByKey
  split
  · rename_i hany
    obtain ⟨a, ha, hkeq⟩ := List.any_eq_true.mp hany
    exact List.mem_map.mpr ⟨a, ha, by rw [if_pos hkeq]⟩
  · exact List.mem_append_right _ (List.mem_singleton.mpr rfl)

/-- C2 (amended): with a valid session and token, `addAlbumToDatabase` always
succeeds and stores `deriveYear release_date` as the year: `null` exactly when
the release-date string is empty, the decimal value of the leading digit
segment before the first hyphen when that segment is a nonempty digit run,
and `NaN` - not `null` - when the string starts with a character that parses
to no number. -/
theorem c2_upsert_album_year_amended (st : Store) (u tok : String)
    (pap : String → Option Int) (d : AlbumInput) :
    (addAlbumToDatabase st (some ⟨"benwaffle", u⟩) (some tok) pap d).result = .ok () ∧
    (∃ row ∈ (addAlbumToDatabase st (some ⟨"benwaffle", u⟩) (some tok) pap d).store.spotifyAlbums,
      row.spotifyId = d.id ∧ row.year = deriveYear d.release_date) ∧
    (d.release_date = "" → deriveYear d.release_date = JsYear.null) ∧
    (∀ ds : List Char, d.release_date.data.takeWhile (fun c => !(c == '-')) = ds → ds ≠ [] →
      (∀ c ∈ ds, isDigitChar c = true) → deriveYear d.release_date = .num (decimalVal ds)) ∧
    (∀ (c : Char) (cs : List Char), d.release_date.data = c :: cs → isDigitChar c = false →
      jsIsWhitespace c = false → c ≠ '-' → c ≠ '+' →
      deriveYear d.release_date = JsYear.nan ∧ JsYear.nan ≠ JsYear.null) := by
  refine ⟨?_, ?_, ?_, ?_, ?_⟩
  · unfold addAlbumToDatabase checkAuth
    simp
  · refine ⟨⟨d.id, d.name, deriveYear d.release_date, jsOrNullInt (pap d.id)⟩, ?_, rfl, rfl⟩
    unfold addAlbumToDatabase checkAuth
    simp only [if_pos rfl]
    exact mem_upsertByKey AlbumRow.spotifyId _ _
  · intro h
    unfold deriveYear
    rw [if_pos h]
  · intro ds hseg hne hdig
    exact deriveYear_digit_seg _ ds hseg hne hdig
  · intro c cs hdata hd hw hm hp
    exact ⟨deriveYear_nan _ c cs hdata hd hw hm hp, by decide⟩

/-- C2 counterexample: saving an album whose release date is `"unknown"`
stores year `NaN`, not `null` as the claim states. -/
theorem c2_counterexample :
    (addAlbumToDatabase emptyStore (some ⟨"benwaffle", "u1"⟩) (some "tok") constPop
      ⟨"alb1", "Mystery", "unknown", some 10⟩).store.spotifyAlbums =
      [⟨"alb1", "Mystery", JsYear.nan, some 50⟩] ∧ JsYear.nan ≠ JsYear.null := by
  constructor <;> decide

/-- Witness for the amended C2 at a concrete parseable and a concrete
unparseable release date. -/
theorem c2_upsert_album_year_amended_witness :
    (addAlbumToDatabase emptyStore (some ⟨"benwaffle", "u1"⟩) (some "tok") constPop
      ⟨"alb2", "Eroica", "1824-03-01", some 10⟩).result = .ok () ∧
    deriveYear "1824-03-01" = JsYear.num 1824 ∧
    deriveYear "unknown" = JsYear.nan ∧
    deriveYear "" = JsYear.null := by
  have h := c2_upsert_album_year_amended emptyStore "u1" "tok" constPop
    ⟨"alb2", "Eroica", "1824-03-01", some 10⟩
  refine ⟨h.1, ?_, ?_, ?_⟩
  · have h4 := h.2.2.2.1 ['1', '8', '2', '4'] (by decide) (by decide) (by decide)
    rw [h4]
    decide
  · have h5 := (c2_upsert_album_year_amended emptyStore "u1" "tok" constPop
      ⟨"alb3", "Mystery", "unknown", some 10⟩).2.2.2.2 'u' "nknown".data (by decide) (by decide)
      (by decide) (by decide) (by decide)
    exact h5.1
  · exact (c2_upsert_album_year_amended emptyStore "u1" "tok" constPop
      ⟨"alb4", "Untitled", "", some 10⟩).2.2.1 rfl

/-! ## C3: composer insert is not idempotent -/

/-- A successful `addComposer` appended the new row to the composer table. -/
theorem addComposer_ok_store (st : Store) (u aid name : String) (r : ComposerRow)
    (h1 : (addComposer st (some ⟨"benwaffle", u⟩) aid name).result = .ok r) :
    (addComposer st (some ⟨"benwaffle", u⟩) aid name).store.composers =
      st.composers ++ [⟨slugify name, name, aid⟩] := by
  unfold addComposer checkAuth at h1 ⊢
  by_cases hc : composerInsertConflicts st ⟨slugify name, name, aid⟩ = true
  · simp [hc] at h1
  · simp [hc]

/-- C3: `addComposer` and the composer POST endpoint perform a plain insert
with no upsert semantics: after a successful first call, a second call with
the same name fails on the duplicate slug, surfacing the generic thrown error
(action) or HTTP 500 (endpoint). -/
theorem c3_composer_insert_not_idempotent (st : Store) (u aid1 aid2 name : String)
    (r : ComposerRow)
    (h1 : (addComposer st (some ⟨"benwaffle", u⟩) aid1 name).result = .ok r) :
    (addComposer (addComposer st (some ⟨"benwaffle", u⟩) aid1 name).store
        (some ⟨"benwaffle", u⟩) aid2 name).result =
      ActRes.err (.failed "Failed to add composer") ∧
    (aid2 ≠ "" → name ≠ "" →
      (composerPOST (addComposer st (some ⟨"benwaffle", u⟩) aid1 name).store
        (some ⟨"benwaffle", u⟩) (some aid2) (some name)).status = 500) := by
  have hstore := addComposer_ok_store st u aid1 name r h1
  have hconf : composerInsertConflicts
      (addComposer st (some ⟨"benwaffle", u⟩) aid1 name).store
      ⟨slugify name, name, aid2⟩ = true := by
    unfold composerInsertConflicts
    rw [hstore, List.any_append]
    simp
  constructor
  · generalize hst2 : (addComposer st (some ⟨"benwaffle", u⟩) aid1 name).store = st2 at hconf ⊢
    unfold addComposer checkAuth
    simp [hconf]
  · intro ha hn
    generalize hst2 : (addComposer st (some ⟨"benwaffle", u⟩) aid1 name).store = st2 at hconf ⊢
    unfold composerPOST
    simp [hconf, ha, hn]

/-- Witness for C3: inserting the same composer name twice from an empty
store fails on the second call. -/
theorem c3_composer_insert_not_idempotent_witness :
    (addComposer (addComposer emptyStore (some ⟨"benwaffle", "u1"⟩) "sp1" "Arvo Pärt").store
        (some ⟨"benwaffle", "u1"⟩) "sp2" "Arvo Pärt").result =
      ActRes.err (.failed "Failed to add composer") ∧
    (composerPOST (addComposer emptyStore (some ⟨"benwaffle", "u1"⟩) "sp1" "Arvo Pärt").store
        (some ⟨"benwaffle", "u1"⟩) (some "sp2") (some "Arvo Pärt")).status = 500 := by
  have h := c3_composer_insert_not_idempotent emptyStore "u1" "sp1" "sp2" "Arvo Pärt"
    ⟨"arvo-prt", "Arvo Pärt", "sp1"⟩ (by decide)
  exact ⟨h.1, h.2 (by decide) (by decide)⟩

/-! ## C5: work and movement identifier derivation -/

/-- The track-movement insert leaves a row carrying the requested link. -/
theorem exists_insertTrackMovementIgnore (r : TrackMovementRow) (l : List TrackMovementRow) :
    ∃ tm ∈ insertTrackMovementIgnore r l,
      tm.spotifyTrackId = r.spotifyTrackId ∧ tm.movementId = r.movementId := by
  unfold insertTrackMovementIgnore
  split
  · rename_i hany
    obtain ⟨a, ha, hpred⟩ := List.any_eq_true.mp hany
    simp only [Bool.and_eq_true, beq_iff_eq] at hpred
    exact ⟨a, ha, hpred.1, hpred.2⟩
  · exact ⟨r, List.mem_append_right _ (List.mem_singleton.mpr rfl), rfl, rfl⟩

/-- C5: `addWorkMovementAndTrack` derives the Work identifier as
`composerId/lowercase(catalogSystem)-catalogNumber` and the Movement
identifier as `workId/movementNumber`, returns them, and stores the Work,
Movement and TrackMovement rows under exactly those identifiers. -/
theorem c5_work_movement_identifiers (st : Store) (u : String)
    (d : WorkMovementTrackInput) :
    (∃ r, (addWorkMovementAndTrack st (some ⟨"benwaffle", u⟩) d).result = .ok r ∧
      r.workId = d.composerId ++ "/" ++ jsToLowerString d.catalogSystem ++ "-" ++
        d.catalogNumber ∧
      r.movementId = r.workId ++ "/" ++ toString d.movementNumber) ∧
    (∃ w ∈ (addWorkMovementAndTrack st (some ⟨"benwaffle", u⟩) d).store.works,
      w.id = d.composerId ++ "/" ++ jsToLowerString d.catalogSystem ++ "-" ++ d.catalogNumber ∧
      w.composerId = d.composerId ∧ w.title = d.formalName) ∧
    (∃ m ∈ (addWorkMovementAndTrack st (some ⟨"benwaffle", u⟩) d).store.movements,
      m.id = (d.composerId ++ "/" ++ jsToLowerString d.catalogSystem ++ "-" ++
        d.catalogNumber) ++ "/" ++ toString d.movementNumber ∧
      m.workId = d.composerId ++ "/" ++ jsToLowerString d.catalogSystem ++ "-" ++
        d.catalogNumber ∧
      m.number = d.movementNumber) ∧
    (∃ tm ∈ (addWorkMovementAndTrack st (some ⟨"benwaffle", u⟩) d).store.trackMovements,
      tm.spotifyTrackId = d.spotifyTrackId ∧
      tm.movementId = (d.composerId ++ "/" ++ jsToLowerString d.catalogSystem ++ "-" ++
        d.catalogNumber) ++ "/" ++ toString d.movementNumber) ∧
    (addWorkMovementAndTrack emptyStore (some ⟨"benwaffle", "u1"⟩)
        ⟨"beethoven", "Symphony No. 5", none, "Op", "67", none, none, 1, none, none,
          "tr1"⟩).result =
      .ok ⟨"beethoven/op-67", "beethoven/op-67/1"⟩ := by
  refine ?_
  constructor
  · unfold addWorkMovementAndTrack checkAuth
    simp only [if_pos rfl]
    exact ⟨_, rfl, rfl, rfl⟩
  refine ⟨?_, ?_, ?_, by decide⟩
  · unfold addWorkMovementAndTrack checkAuth
    simp only [if_pos rfl]
    exact ⟨_, mem_upsertByKey WorkRow.id _ _, rfl, rfl, rfl⟩
  · unfold addWorkMovementAndTrack checkAuth
    simp only [if_pos rfl]
    exact ⟨_, mem_upsertByKey MovementRow.id _ _, rfl, rfl, rfl⟩
  · unfold addWorkMovementAndTrack checkAuth
    simp only [if_pos rfl]
    exact exists_insertTrackMovementIgnore _ _

/-! ## C6: track reference extraction -/

theorem string_data_append (s t : String) : (s ++ t).data = s.data ++ t.data := rfl

theorem data_ne_nil {s : String} (h : s ≠ "") : s.data ≠ [] := by
  intro hd
  apply h
  cases s with
  | mk l =>
    cases hd
    rfl

theorem stripL_self_append : ∀ l r : List Char, stripL l (l ++ r) = some r := by
  intro l
  induction l with
  | nil => intro r; rfl
  | cons p ps ih =>
    intro r
    show stripL (p :: ps) (p :: (ps ++ r)) = some r
    unfold stripL
    rw [if_pos (beq_self_eq_true p)]
    exact ih r

theorem stripL_none_of_alnum :
    ∀ pat s : List Char, (∃ c ∈ pat, isAsciiAlnumChar c = false) →
      (∀ c ∈ s, isAsciiAlnumChar c = true) → stripL pat s = none := by
  intro pat
  induction pat with
  | nil =>
    intro s h _
    obtain ⟨c, hc, _⟩ := h
    exact absurd hc (List.not_mem_nil c)
  | cons p ps ih =>
    intro s h hall
    cases s with
    | nil => rfl
    | cons c cs =>
      unfold stripL
      by_cases hpc : (p == c) = true
      · rw [if_pos hpc]
        obtain ⟨b, hb, hbf⟩ := h
        rcases List.mem_cons.mp hb with h1 | h1
        · subst h1
          rw [beq_iff_eq.mp hpc] at hbf
          exact absurd (hall c (List.mem_cons_self _ _)) (by rw [hbf]; simp)
        · exact ih cs ⟨b, h1, hbf⟩ (fun d hd => hall d (List.mem_cons_of_mem _ hd))
      · rw [if_neg hpc]

theorem searchPat_none_of_alnum (pat : List Char)
    (hbad : ∃ c ∈ pat, isAsciiAlnumChar c = false) :
    ∀ s : List Char, (∀ c ∈ s, isAsciiAlnumChar c = true) → searchPat pat s = none := by
  intro s
  induction s with
  | nil => intro _; rfl
  | cons c cs ih =>
    intro hall
    unfold searchPat
    rw [stripL_none_of_alnum pat (c :: cs) hbad hall]
    exact ih (fun d hd => hall d (List.mem_cons_of_mem _ hd))

theorem searchPat_at_start (pat s : List Char) (hpat : pat ≠ []) (hne : s ≠ [])
    (hall : ∀ c ∈ s, isAsciiAlnumChar c = true) : searchPat pat (pat ++ s) = some s := by
  cases pat with
  | nil => exact absurd rfl hpat
  | cons p0 pr =>
    show searchPat (p0 :: pr) (p0 :: (pr ++ s)) = some s
    unfold searchPat
    rw [show stripL (p0 :: pr) (p0 :: (pr ++ s)) = some s from stripL_self_append _ _]
    dsimp only
    rw [takeWhile_all s hall]
    rw [if_neg (by cases s with | nil => exact absurd rfl hne | cons a b => simp)]

theorem searchPat_uri_skip_url (rest : List Char) :
    searchPat "spotify:track:".data ("https://open.spotify.com/track/".data ++ rest) =
      searchPat "spotify:track:".data rest := rfl

theorem searchPat_url_skip_scheme (rest : List Char) :
    searchPat "open.spotify.com/track/".data ("https://".data ++ rest) =
      searchPat "open.spotify.com/track/".data rest := rfl

/-- C6: both reference shapes extract the same id, and an input matching
neither pattern is rejected with HTTP 400 before any Provider call and
without touching the store; a missing or non-string body is rejected the
same way. -/
theorem c6_reference_extraction :
    (∀ id : String, id ≠ "" → (∀ c ∈ id.data, isAsciiAlnumChar c = true) →
      extractTrackId ("spotify:track:" ++ id) = some id ∧
      extractTrackId ("https://open.spotify.com/track/" ++ id) = some id) ∧
    (∀ (st : Store) (u s : String) (token : Option String)
        (provider : String → ProviderResult), extractTrackId s = none →
      (trackPOST st (some ⟨"benwaffle", u⟩) (some s) token provider).status = 400 ∧
      (trackPOST st (some ⟨"benwaffle", u⟩) (some s) token provider).providerCalled = false ∧
      (trackPOST st (some ⟨"benwaffle", u⟩) (some s) token provider).store = st) ∧
    (∀ (st : Store) (u : String) (token : Option String)
        (provider : String → ProviderResult),
      (trackPOST st (some ⟨"benwaffle", u⟩) none token provider).status = 400 ∧
      (trackPOST st (some ⟨"benwaffle", u⟩) none token provider).providerCalled = false) := by
  refine ⟨?_, ?_, ?_⟩
  · intro id hne hall
    constructor
    · unfold extractTrackId
      rw [string_data_append,
        searchPat_at_start _ _ (by decide) (data_ne_nil hne) hall]
    · unfold extractTrackId
      rw [string_data_append]
      rw [searchPat_uri_skip_url,
        searchPat_none_of_alnum _ ⟨':', by decide, by decide⟩ _ hall]
      rw [show "https://open.spotify.com/track/".data =
        "https://".data ++ "open.spotify.com/track/".data from by decide]
      rw [List.append_assoc, searchPat_url_skip_scheme,
        searchPat_at_start _ _ (by decide) (data_ne_nil hne) hall]
  · intro st u s token provider hex
    unfold trackPOST
    by_cases hs : s = ""
    · simp [hs]
    · simp [hs, hex]
  · intro st u token provider
    unfold trackPOST
    simp

/-- Witness for C6 at a concrete id and a concrete invalid reference. -/
theorem c6_reference_extraction_witness :
    extractTrackId ("spotify:track:" ++ "4uLU6hMCjMI75M1A2tKUQC") =
      some "4uLU6hMCjMI75M1A2tKUQC" ∧
    extractTrackId ("https://open.spotify.com/track/" ++ "4uLU6hMCjMI75M1A2tKUQC") =
      some "4uLU6hMCjMI75M1A2tKUQC" ∧
    (trackPOST emptyStore (some ⟨"benwaffle", "u1"⟩) (some "hello") none
      providerErr404).status = 400 := by
  have h1 := c6_reference_extraction.1 "4uLU6hMCjMI75M1A2tKUQC" (by decide) (by decide)
  have h2 := c6_reference_extraction.2.1 emptyStore "u1" "hello" none providerErr404 (by decide)
  exact ⟨h1.1, h1.2, h2.1⟩

/-! ## C7: the Access Gate runs first in every privileged operation -/

/-- C7: with no session every operation fails with Unauthorized (HTTP 401),
and with a principal other than the fixed operator it fails with AccessDenied
(HTTP 403) - for every request payload, with the store unchanged and no
Provider call. -/
theorem c7_access_gate_first :
    (∀ (st : Store) (body token : Option String) (provider : String → ProviderResult),
      trackPOST st none body token provider = ⟨401, some "Unauthorized", none, st, false⟩) ∧
    (∀ (st : Store) (s : Session) (body token : Option String)
        (provider : String → ProviderResult), s.name ≠ "benwaffle" →
      trackPOST st (some s) body token provider = ⟨403, some "Access denied", none, st, false⟩) ∧
    (∀ (st : Store) (aid nm : Option String),
      composerPOST st none aid nm = ⟨401, some "Unauthorized", none, st⟩) ∧
    (∀ (st : Store) (s : Session) (aid nm : Option String), s.name ≠ "benwaffle" →
      composerPOST st (some s) aid nm = ⟨403, some "Access denied", none, st⟩) ∧
    (∀ (st : Store) (token : Option String) (pap : String → Option Int) (d : AlbumInput),
      addAlbumToDatabase st none token pap d = ⟨.err .unauthorized, st, false⟩) ∧
    (∀ (st : Store) (s : Session) (token : Option String) (pap : String → Option Int)
        (d : AlbumInput), s.name ≠ "benwaffle" →
      addAlbumToDatabase st (some s) token pap d = ⟨.err .accessDenied, st, false⟩) ∧
    (∀ (st : Store) (token : Option String) (pap : String → Option Int)
        (artists : List ArtistInput),
      addArtistsToDatabase st none token pap artists = ⟨.err .unauthorized, st, false⟩) ∧
    (∀ (st : Store) (s : Session) (token : Option String) (pap : String → Option Int)
        (artists : List ArtistInput), s.name ≠ "benwaffle" →
      addArtistsToDatabase st (some s) token pap artists = ⟨.err .accessDenied, st, false⟩) ∧
    (∀ (st : Store) (d : TrackInput),
      addTrackToDatabase st none d = ⟨.err .unauthorized, st, false⟩) ∧
    (∀ (st : Store) (s : Session) (d : TrackInput), s.name ≠ "benwaffle" →
      addTrackToDatabase st (some s) d = ⟨.err .accessDenied, st, false⟩) ∧
    (∀ (st : Store) (aid nm : String),
      addComposer st none aid nm = ⟨.err .unauthorized, st, false⟩) ∧
    (∀ (st : Store) (s : Session) (aid nm : String), s.name ≠ "benwaffle" →
      addComposer st (some s) aid nm = ⟨.err .accessDenied, st, false⟩) ∧
    (∀ (st : Store) (cid cs cn : String) (mn : Nat),
      checkWorkAndMovement st none cid cs cn mn = ⟨.err .unauthorized, st, false⟩) ∧
    (∀ (st : Store) (s : Session) (cid cs cn : String) (mn : Nat), s.name ≠ "benwaffle" →
      checkWorkAndMovement st (some s) cid cs cn mn = ⟨.err .accessDenied, st, false⟩) ∧
    (∀ (st : Store) (d : WorkMovementTrackInput),
      addWorkMovementAndTrack st none d = ⟨.err .unauthorized, st, false⟩) ∧
    (∀ (st : Store) (s : Session) (d : WorkMovementTrackInput), s.name ≠ "benwaffle" →
      addWorkMovementAndTrack st (some s) d = ⟨.err .accessDenied, st, false⟩) := by
  refine ⟨?_, ?_, ?_, ?_, ?_, ?_, ?_, ?_, ?_, ?_, ?_, ?_, ?_, ?_, ?_, ?_⟩
  · intro st body token provider; rfl
  · intro st s body token provider h
    unfold trackPOST
    simp [h]
  · intro st aid nm; rfl
  · intro st s aid nm h
    unfold composerPOST
    simp [h]
  · intro st token pap d; rfl
  · intro st s token pap d h
    unfold addAlbumToDatabase checkAuth
    simp [h]
  · intro st token pap artists; rfl
  · intro st s token pap artists h
    unfold addArtistsToDatabase checkAuth
    simp [h]
  · intro st d; rfl
  · intro st s d h
    unfold addTrackToDatabase checkAuth
    simp [h]
  · intro st aid nm; rfl
  · intro st s aid nm h
    unfold addComposer checkAuth
    simp [h]
  · intro st cid cs cn mn; rfl
  · intro st s cid cs cn mn h
    unfold checkWorkAndMovement checkAuth
    simp [h]
  · intro st d; rfl
  · intro st s d h
    unfold addWorkMovementAndTrack checkAuth
    simp [h]

/-- Witness for C7: a missing session and a wrong principal at concrete
payloads. -/
theorem c7_access_gate_first_witness :
    trackPOST emptyStore none (some ("spotify:track:" ++ "abc")) none providerErr404 =
      ⟨401, some "Unauthorized", none, emptyStore, false⟩ ∧
    trackPOST emptyStore (some ⟨"eve", "u2"⟩) (some ("spotify:track:" ++ "abc")) none
      providerErr404 = ⟨403, some "Access denied", none, emptyStore, false⟩ ∧
    addComposer emptyStore (some ⟨"eve", "u2"⟩) "sp1" "Brahms" =
      ⟨.err .accessDenied, emptyStore, false⟩ := by
  have h := c7_access_gate_first
  exact ⟨h.1 emptyStore _ _ _,
    h.2.1 emptyStore ⟨"eve", "u2"⟩ _ _ _ (by decide),
    h.2.2.2.2.2.2.2.2.2.2.2.1 emptyStore ⟨"eve", "u2"⟩ "sp1" "Brahms" (by decide)⟩

/-! ## C8: provider errors pass through -/

/-- C8: when the Provider answers a valid reference with a non-success
status, the endpoint responds with that same status (not a generic 500) and
with the provider's error message when one is present. -/
theorem c8_provider_error_passthrough (st : Store) (u uri tid tok : String)
    (provider : String → ProviderResult) (status : Nat) (message : Option String)
    (hne : uri ≠ "") (hex : extractTrackId uri = some tid)
    (hp : provider tid = .err status message) :
    (trackPOST st (some ⟨"benwaffle", u⟩) (some uri) (some tok) provider).status = status ∧
    (trackPOST st (some ⟨"benwaffle", u⟩) (some uri) (some tok) provider).errMsg =
      some (message.getD "Failed to fetch track from Spotify") ∧
    (∀ m : String, message = some m →
      (trackPOST st (some ⟨"benwaffle", u⟩) (some uri) (some tok) provider).errMsg = some m) ∧
    (trackPOST st (some ⟨"benwaffle", u⟩) (some uri) (some tok) provider).providerCalled
      = true := by
  have hmain : trackPOST st (some ⟨"benwaffle", u⟩) (some uri) (some tok) provider =
      ⟨status, some (message.getD "Failed to fetch track from Spotify"), none, st, true⟩ := by
    unfold trackPOST
    simp [hne, hex, hp]
  refine ⟨by rw [hmain], by rw [hmain], ?_, by rw [hmain]⟩
  intro m hm
  rw [hmain, hm]
  simp

/-- Witness for C8: a provider-side 404 with message surfaces as 404 with
that message. -/
theorem c8_provider_error_passthrough_witness :
    (trackPOST emptyStore (some ⟨"benwaffle", "u1"⟩) (some ("spotify:track:" ++ "abc123"))
      (some "tok") providerErr404).status = 404 ∧
    (trackPOST emptyStore (some ⟨"benwaffle", "u1"⟩) (some ("spotify:track:" ++ "abc123"))
      (some "tok") providerErr404).errMsg = some "Track not found" := by
  have h := c8_provider_error_passthrough emptyStore "u1" ("spotify:track:" ++ "abc123")
    "abc123" "tok" providerErr404 404 (some "Track not found") (by decide) (by decide)
    (by decide)
  exact ⟨h.1, h.2.2.1 "Track not found" rfl⟩

/-! ## C9: reconciliation performs no writes -/

/-- C9: for every input and starting store state, the track reconciliation
endpoint leaves the Catalog Store unchanged. -/
theorem c9_reconciliation_no_writes (st : Store) (session : Option Session)
    (body token : Option String) (provider : String → ProviderResult) :
    (trackPOST st session body token provider).store = st := by
  unfold trackPOST
  rcases session with _ | s
  · rfl
  · dsimp only
    by_cases hname : s.name = "benwaffle"
    · rw [if_pos hname]
      rcases body with _ | uri
      · rfl
      · dsimp only
        by_cases huri : uri = ""
        · rw [if_pos huri]
        · rw [if_neg huri]
          cases hex : extractTrackId uri with
          | none => rfl
          | some tid =>
            dsimp only
            rcases token with _ | tok
            · rfl
            · dsimp only
              cases hp : provider tid with
              | err status message => rfl
              | ok t => rfl
    · rw [if_neg hname]
